import Mathlib

/-!
Verification of the pyshimmer serial protocol engine against its
natural-language specification.

The development shallowly embeds the Python sources:
* `pyshimmer/serial_base.py`   - buffered byte stream with read/peek
* `pyshimmer/bluetooth/bt_serial.py` - `BluetoothSerial` framing helpers
* `pyshimmer/bluetooth/bt_commands.py` - command codec
* `pyshimmer/bluetooth/bt_api.py` - `BluetoothRequestHandler` dispatch engine
* `pyshimmer/dev/channels.py`  - channel / sensor data model
* `pyshimmer/dev/base.py`      - tick conversions
* `pyshimmer/uart/dock_serial.py` - dock CRC protocol

Python exceptions and object mutation are modelled with an explicit
state-passing monad `M α = HState → Except PyErr α × HState`.  An
exception keeps all mutations performed so far, exactly as in Python
(the state survives a throw).
-/

set_option maxRecDepth 100000

deriving instance DecidableEq for Except

namespace PyShimmer

/-- Python exceptions raised by the embedded code.  `typeError` is raised by
`read_response` when the f-string tries to format a `bytes` response code
with `:x`; `runtimeError` is the explicit incorrect-response-code error;
`emptyError` is `queue.Empty`; `keyError` is the dict lookup failure;
`readAbort` is the cancelled-read signal of `serial_base.py`. -/
inductive PyErr where
  | valueError
  | runtimeError
  | typeError
  | keyError
  | emptyError
  | ioError
  | structError
  | readAbort
  deriving DecidableEq, Repr

/-- Byte strings are lists of naturals < 256 (the bound is maintained by the
operations themselves, as in Python). -/
abbrev Bytes := List Nat

/-- Wire constant from `bt_const.py`. -/
def ACK_COMMAND_PROCESSED : Nat := 0xFF

/-- Wire constant from `bt_const.py`. -/
def INSTREAM_CMD_RESPONSE : Nat := 0x8A

/-- Wire constant from `bt_const.py`. -/
def DATA_PACKET : Nat := 0x00

/-- Wire constant from `bt_const.py`. -/
def GET_STATUS_COMMAND : Nat := 0x72

/-- Wire constant from `bt_const.py`. -/
def STATUS_RESPONSE : Nat := 0x71

/-- `FULL_STATUS_RESPONSE = bytes((INSTREAM_CMD_RESPONSE, STATUS_RESPONSE))`. -/
def FULL_STATUS_RESPONSE : Bytes := [INSTREAM_CMD_RESPONSE, STATUS_RESPONSE]

/-- Wire constant from `bt_const.py`. -/
def GET_SHIMMERNAME_COMMAND : Nat := 0x7B

/-- Wire constant from `bt_const.py`. -/
def SHIMMERNAME_RESPONSE : Nat := 0x7A

/-- Wire constant from `bt_const.py`. -/
def SET_RWC_COMMAND : Nat := 0x8F

/-!  ### Channel data model (`pyshimmer/dev/channels.py`) — forward part used
by the dispatch engine.  The full definitions appear further below; here we
only need the data-type descriptor. -/

/-- `ChannelDataType.__init__`: byte width, signedness and endianness of one
Shimmer data channel. -/
structure ChannelDataType where
  size : Nat
  signed : Bool
  le : Bool
  deriving DecidableEq, Repr

/-- Fuel-based halving loop for `bitLength` (structural, so that it
reduces inside the kernel). -/
def bitLengthAux : Nat → Nat → Nat
  | 0, _ => 0
  | _ + 1, 0 => 0
  | fuel + 1, n + 1 => bitLengthAux fuel ((n + 1) / 2) + 1

/-- Python `int.bit_length` (number of bits needed for `n`). -/
def bitLength (n : Nat) : Nat := bitLengthAux n n

/-- `util.raise_to_next_pow`: `1 << (x - 1).bit_length()` for positive `x`. -/
def raise_to_next_pow (x : Nat) : Nat :=
  if x ≤ 0 then 1 else 1 <<< bitLength (x - 1)

/-- `self._valid_size = raise_to_next_pow(self.size)`. -/
def ChannelDataType.valid_size (d : ChannelDataType) : Nat :=
  raise_to_next_pow d.size

/-- `self._needs_extend = size != self._valid_size`. -/
def ChannelDataType.needs_extend (d : ChannelDataType) : Bool :=
  d.size ≠ d.valid_size

/-- `ChannelDataType._get_msb`: last byte if little-endian, first if big. -/
def ChannelDataType.get_msb (d : ChannelDataType) (val : Bytes) : Nat :=
  if d.le then val.getLastD 0 else val.headD 0

/-- `ChannelDataType._get_extension_value`: `0xFF` for negative signed
values (replicating the sign bit), else `0x00`. -/
def ChannelDataType.get_extension_value (d : ChannelDataType) (val : Bytes) : Nat :=
  let msb := d.get_msb val
  let isNegative := (msb >>> 7) &&& 1 == 1
  if d.signed && isNegative then 0xFF else 0x00

/-- `ChannelDataType._extend_value`: pad to `valid_size` with the extension
byte, on the most-significant side. -/
def ChannelDataType.extend_value (d : ChannelDataType) (val : Bytes) : Bytes :=
  let extValue := d.get_extension_value val
  let suffix := List.replicate (d.valid_size - d.size) extValue
  if d.le then val ++ suffix else suffix ++ val

/-- `ChannelDataType._truncate_value`: drop the padding again on encode. -/
def ChannelDataType.truncate_value (d : ChannelDataType) (val : Bytes) : Bytes :=
  if d.le then val.take d.size else val.drop (d.valid_size - d.size)

/-- Little-endian byte-list to natural. -/
def bytesToNatLE : Bytes → Nat
  | [] => 0
  | b :: rest => b + 256 * bytesToNatLE rest

/-- Natural to `n` little-endian bytes (the value part of `struct.pack`). -/
def natToBytesLE : Nat → Nat → Bytes
  | 0, _ => []
  | n + 1, v => v % 256 :: natToBytesLE n (v / 256)

/-- `struct.unpack` of one fixed-width integer: requires the exact byte
count, combines in the requested endianness, and reinterprets the top bit
for signed formats. -/
def structUnpackInt (size : Nat) (signed le : Bool) (bs : Bytes) : Except PyErr Int :=
  if bs.length ≠ size then
    .error .structError
  else
    let u := bytesToNatLE (if le then bs else bs.reverse)
    if signed ∧ u ≥ 2 ^ (8 * size - 1) then
      .ok ((u : Int) - 2 ^ (8 * size))
    else
      .ok (u : Int)

/-- `struct.pack` of one fixed-width integer: range-checks the value, then
emits the two's-complement bytes in the requested endianness. -/
def structPackInt (size : Nat) (signed le : Bool) (val : Int) : Except PyErr Bytes :=
  let inRange :=
    if signed then -(2 ^ (8 * size - 1) : Int) ≤ val ∧ val < 2 ^ (8 * size - 1)
    else 0 ≤ val ∧ val < 2 ^ (8 * size)
  if inRange then
    let u := (val % (2 ^ (8 * size) : Int)).toNat
    let bs := natToBytesLE size u
    .ok (if le then bs else bs.reverse)
  else
    .error .structError

/-- `self._struct_dtypes` only maps the power-of-two widths 1, 2, 4, 8; any
other `valid_size` raises `KeyError` in `_get_struct_format`. -/
def structDtypeKnown (n : Nat) : Bool :=
  n == 1 || n == 2 || n == 4 || n == 8

/-- `ChannelDataType.decode`: extend to `valid_size` if needed, then
`struct.unpack` with the format from `_get_struct_format`. -/
def ChannelDataType.decode (d : ChannelDataType) (valBin : Bytes) : Except PyErr Int :=
  let v := if d.needs_extend then d.extend_value valBin else valBin
  if structDtypeKnown d.valid_size then
    structUnpackInt d.valid_size d.signed d.le v
  else
    .error .keyError

/-- `ChannelDataType.encode`: `struct.pack` at `valid_size`, then truncate
the padding back off if the nominal size is narrower. -/
def ChannelDataType.encode (d : ChannelDataType) (val : Int) : Except PyErr Bytes :=
  if structDtypeKnown d.valid_size then do
    let valPacked ← structPackInt d.valid_size d.signed d.le val
    if d.needs_extend then
      pure (d.truncate_value valPacked)
    else
      pure valPacked
  else
    .error .keyError

/-- The channel types of `EChannelType` (`dev/channels.py`). -/
inductive EChannelType where
  | ACCEL_LN_X | ACCEL_LN_Y | ACCEL_LN_Z
  | VBATT
  | ACCEL_WR_X | ACCEL_WR_Y | ACCEL_WR_Z
  | MAG_REG_X | MAG_REG_Y | MAG_REG_Z
  | GYRO_X | GYRO_Y | GYRO_Z
  | EXTERNAL_ADC_A0 | EXTERNAL_ADC_A1 | EXTERNAL_ADC_A2
  | INTERNAL_ADC_A3 | INTERNAL_ADC_A0 | INTERNAL_ADC_A1 | INTERNAL_ADC_A2
  | ACCEL_HG_X | ACCEL_HG_Y | ACCEL_HG_Z
  | MAG_WR_X | MAG_WR_Y | MAG_WR_Z
  | TEMPERATURE | PRESSURE
  | GSR_RAW
  | EXG1_STATUS | EXG1_CH1_24BIT | EXG1_CH2_24BIT
  | EXG2_STATUS | EXG2_CH1_24BIT | EXG2_CH2_24BIT
  | EXG1_CH1_16BIT | EXG1_CH2_16BIT
  | EXG2_CH1_16BIT | EXG2_CH2_16BIT
  | STRAIN_HIGH | STRAIN_LOW
  | TIMESTAMP
  deriving DecidableEq, Repr

/-- `ChDataTypeAssignment`: the data type of each channel (entries mapped
to `None` in the source stay `none`). -/
def ChDataTypeAssignment : EChannelType → Option ChannelDataType
  | .ACCEL_LN_X => some ⟨2, true, true⟩
  | .ACCEL_LN_Y => some ⟨2, true, true⟩
  | .ACCEL_LN_Z => some ⟨2, true, true⟩
  | .VBATT => some ⟨2, true, true⟩
  | .ACCEL_WR_X => some ⟨2, true, true⟩
  | .ACCEL_WR_Y => some ⟨2, true, true⟩
  | .ACCEL_WR_Z => some ⟨2, true, true⟩
  | .MAG_REG_X => some ⟨2, true, true⟩
  | .MAG_REG_Y => some ⟨2, true, true⟩
  | .MAG_REG_Z => some ⟨2, true, true⟩
  | .GYRO_X => some ⟨2, true, false⟩
  | .GYRO_Y => some ⟨2, true, false⟩
  | .GYRO_Z => some ⟨2, true, false⟩
  | .EXTERNAL_ADC_A0 => some ⟨2, false, true⟩
  | .EXTERNAL_ADC_A1 => some ⟨2, false, true⟩
  | .EXTERNAL_ADC_A2 => some ⟨2, false, true⟩
  | .INTERNAL_ADC_A3 => some ⟨2, false, true⟩
  | .INTERNAL_ADC_A0 => some ⟨2, false, true⟩
  | .INTERNAL_ADC_A1 => some ⟨2, false, true⟩
  | .INTERNAL_ADC_A2 => some ⟨2, false, true⟩
  | .ACCEL_HG_X => none
  | .ACCEL_HG_Y => none
  | .ACCEL_HG_Z => none
  | .MAG_WR_X => none
  | .MAG_WR_Y => none
  | .MAG_WR_Z => none
  | .TEMPERATURE => some ⟨2, false, false⟩
  | .PRESSURE => some ⟨3, false, false⟩
  | .GSR_RAW => some ⟨2, false, true⟩
  | .EXG1_STATUS => some ⟨1, false, true⟩
  | .EXG1_CH1_24BIT => some ⟨3, true, false⟩
  | .EXG1_CH2_24BIT => some ⟨3, true, false⟩
  | .EXG2_STATUS => some ⟨1, false, true⟩
  | .EXG2_CH1_24BIT => some ⟨3, true, false⟩
  | .EXG2_CH2_24BIT => some ⟨3, true, false⟩
  | .EXG1_CH1_16BIT => some ⟨2, true, false⟩
  | .EXG1_CH2_16BIT => some ⟨2, true, false⟩
  | .EXG2_CH1_16BIT => some ⟨2, true, false⟩
  | .EXG2_CH2_16BIT => some ⟨2, true, false⟩
  | .STRAIN_HIGH => some ⟨2, false, true⟩
  | .STRAIN_LOW => some ⟨2, false, true⟩
  | .TIMESTAMP => some ⟨3, false, true⟩

/-!  ### Python values

`ShimmerCommand.receive` can return `None`, a decoded string, a list of
status booleans, an `int`, or a tuple; a single sum type covers all the
results our claims touch. -/

inductive PyVal where
  | pyNone
  | pyStr (s : Bytes)
  | pyBools (bs : List Bool)
  | pyInt (n : Int)
  | pyTuple
  deriving DecidableEq, Repr

/-!  ### The Bluetooth command objects (`bt_commands.py`)

The dispatch engine stores command objects and calls their virtual methods
(`has_response`, `get_response_code`, `send`, `receive`) plus one
`isinstance(..., GetStatusCommand)` check.  We embed the closed set of
command shapes that the claims involve. -/

inductive BtCommand where
  /-- `OneShotCommand(cmd_code)` — request only, no response. -/
  | oneShot (cmdCode : Nat)
  /-- `GetStringCommand(req_code, resp_code)` — `GetDeviceNameCommand` is
  `GetStringCommand(GET_SHIMMERNAME_COMMAND, SHIMMERNAME_RESPONSE)`. -/
  | getString (reqCode : Nat) (respCode : Bytes)
  /-- `SetStringCommand(req_code, str_data)` (payload already encoded). -/
  | setString (reqCode : Nat) (payload : Bytes)
  /-- `GetStatusCommand()`. -/
  | getStatus
  deriving DecidableEq, Repr

/-- `ShimmerCommand.has_response` / `ResponseCommand.has_response`. -/
def BtCommand.has_response : BtCommand → Bool
  | .oneShot _ => false
  | .getString _ _ => true
  | .setString _ _ => false
  | .getStatus => true

/-- `ShimmerCommand.get_response_code` / `ResponseCommand.get_response_code`
(the stored `_rcode` bytes). -/
def BtCommand.get_response_code : BtCommand → Bytes
  | .oneShot _ => []
  | .getString _ rc => rc
  | .setString _ _ => []
  | .getStatus => FULL_STATUS_RESPONSE

/-- The `isinstance(cmd_resp_pair[0], GetStatusCommand)` check of
`_process_status_response`. -/
def BtCommand.isGetStatus : BtCommand → Bool
  | .getStatus => true
  | _ => false

/-- `GetDeviceNameCommand()`. -/
def GetDeviceNameCommand : BtCommand :=
  .getString GET_SHIMMERNAME_COMMAND [SHIMMERNAME_RESPONSE]

/-!  ### Handler state

All mutable pieces of `BluetoothSerial` + `BluetoothRequestHandler` in one
record.  `PendingCompletion` objects live in `complStore` (the completed
flag), `PendingResponse` objects in `respStore` (`none` = result not yet
set, `some v` = result set to the Python value `v`, where `v = .pyNone`
models `set_result(None)`).  Queue entries reference them by id.
Callbacks are modelled by ids; an invocation appends `(id, argument)` to
the corresponding call log. -/

structure HState where
  /-- Unconsumed bytes available from the transport (read side). -/
  input : Bytes
  /-- Bytes written to the transport so far. -/
  written : Bytes
  /-- The Ack Queue: FIFO of `(PendingCompletion, Option (Command, PendingResponse))`. -/
  ackQueue : List (Nat × Option (BtCommand × Nat))
  /-- The Response Queue (a `PeekQueue`): FIFO of `(Command, PendingResponse)`. -/
  respQueue : List (BtCommand × Nat)
  /-- `RequestCompletion` store: completion id ↦ completed flag. -/
  complStore : Nat → Bool
  /-- `RequestResponse` store: response id ↦ (result set?, result). -/
  respStore : Nat → Option PyVal
  /-- Next fresh completion id. -/
  nextCompl : Nat
  /-- Next fresh response id. -/
  nextResp : Nat
  /-- `_stream_types`: configured data-packet layout. -/
  streamTypes : List (EChannelType × ChannelDataType)
  /-- `_status_cbs`: registered status callbacks (by id). -/
  statusCbs : List Nat
  /-- `_stream_cbs`: registered stream callbacks (by id). -/
  streamCbs : List Nat
  /-- Log of status-callback invocations `(callback id, decoded status)`. -/
  statusCalls : List (Nat × List Bool)
  /-- Log of stream-callback invocations `(callback id, decoded packet)`. -/
  streamCalls : List (Nat × List (EChannelType × Int))

/-- The effect monad: Python exceptions over mutable handler state.  A
throw keeps the state mutations already performed, as in Python. -/
def M (α : Type) := HState → Except PyErr α × HState

/-- Monadic return. -/
def mret {α : Type} (a : α) : M α := fun s => (.ok a, s)

/-- Monadic bind: on an exception the partial state is kept and the
continuation is skipped. -/
def mbind {α β : Type} (x : M α) (f : α → M β) : M β := fun s =>
  match x s with
  | (.ok a, s1) => f a s1
  | (.error e, s1) => (.error e, s1)

instance : Monad M where
  pure := mret
  bind := mbind

/-- `raise`: abort with a Python exception, keeping the state. -/
def mthrow {α : Type} (e : PyErr) : M α := fun s => (.error e, s)

/-- Read the handler object state. -/
def mget : M HState := fun s => (.ok s, s)

/-- Replace the handler object state. -/
def mset (s' : HState) : M Unit := fun _ => (.ok (), s')

/-- Update the handler object state. -/
def mmodify (f : HState → HState) : M Unit := fun s => (.ok (), f s)

/-- Run a monadic computation on a state, returning outcome and final state. -/
def runM {α : Type} (x : M α) (s : HState) : Except PyErr α × HState := x s

/-- Pointwise store update. -/
def upd {α : Type} (f : Nat → α) (i : Nat) (v : α) : Nat → α :=
  fun j => if j = i then v else f j

/-!  ### Buffered serial primitives (`serial_base.py`)

`BufferedReader.read` consumes, `peek` does not; both raise `ReadAbort`
when the transport cannot supply enough bytes (the cancellation path). -/

/-- `SerialBase.read` via `BufferedReader.read`. -/
def sread (n : Nat) : M Bytes := do
  let s ← mget
  if n ≤ s.input.length then
    mset { s with input := s.input.drop n }
    pure (s.input.take n)
  else
    mthrow .readAbort

/-- `SerialBase.peek` via `BufferedReader.peek` (non-consuming). -/
def speek (n : Nat) : M Bytes := do
  let s ← mget
  if n ≤ s.input.length then
    pure (s.input.take n)
  else
    mthrow .readAbort

/-- `SerialBase.read_byte` (= `read_packed('B')`). -/
def read_byte : M Nat := do
  let r ← sread 1
  pure (r.headD 0)

/-- `SerialBase.peek_packed('B')`. -/
def peek_byte : M Nat := do
  let r ← speek 1
  pure (r.headD 0)

/-- `SerialBase.write`. -/
def swrite (data : Bytes) : M Unit :=
  mmodify fun s => { s with written := s.written ++ data }

/-- `SerialBase.write_byte` (= `write_packed('B')`; `struct.pack` rejects
values outside one byte). -/
def write_byte (arg : Nat) : M Unit := do
  if arg ≥ 256 then mthrow .structError
  swrite [arg]

/-!  ### `BluetoothSerial` (`bt_serial.py`) -/

/-- `BluetoothSerial.read_varlen`: one length byte, then that many bytes. -/
def read_varlen : M Bytes := do
  let argLen ← read_byte
  let arg ← sread argLen
  pure arg

/-- `BluetoothSerial.write_varlen`: rejects arguments longer than 255 bytes
before writing anything, otherwise writes the length byte then the data. -/
def write_varlen (arg : Bytes) : M Unit := do
  let argLen := arg.length
  if argLen > 255 then
    mthrow .valueError
  write_byte argLen
  swrite arg

/-- The optional argument of `BluetoothSerial.write_command`: either no
argument or a `varlen` payload (the only shapes our commands use). -/
inductive WriteArg where
  | noArg
  | varlen (payload : Bytes)
  deriving DecidableEq, Repr

/-- `BluetoothSerial.write_command`. -/
def write_command (ccode : Nat) (arg : WriteArg) : M Unit := do
  write_byte ccode
  match arg with
  | .noArg => pure ()
  | .varlen payload => write_varlen payload

/-- `BluetoothSerial.read_ack`: read one byte and require the ACK marker. -/
def read_ack : M Unit := do
  let r ← read_byte
  if r ≠ ACK_COMMAND_PROCESSED then
    mthrow .valueError

/-- The dynamic type of the `rcode` argument of
`BluetoothSerial.read_response`: the signature annotates it as `int`, but
`bt_commands.py` also passes `bytes` objects (`self._rcode`). -/
inductive PyRCode where
  | int (n : Nat)
  | bytes (bs : Bytes)
  deriving DecidableEq, Repr

/-- Python `rcode != actual_rcode` where `actual_rcode` is an `int`:
an `int` compares by value, a `bytes` object is never equal to an `int`. -/
def pyRCodeNe : PyRCode → Nat → Bool
  | .int n, m => n ≠ m
  | .bytes _, _ => true

/-- The exception produced by the mismatch branch of `read_response`.  For
an `int` code the `RuntimeError` is raised; for a `bytes` code the
f-string `0x{rcode:x}` itself raises `TypeError` (bytes do not support
the `x` format), so the `RuntimeError` is never constructed. -/
def rcodeMismatchErr : PyRCode → PyErr
  | .int _ => .runtimeError
  | .bytes _ => .typeError

/-- The `arg_format` parameter of `read_response`, restricted to the shapes
used by the embedded commands: absent, `'B'`, or `'varlen'`. -/
inductive ArgFormat where
  | noFmt
  | fmtB
  | varlen
  deriving DecidableEq, Repr

/-- `BluetoothSerial.read_response` (with `instream=False`, the only value
the embedded callers pass): read one byte, compare it with `rcode`, then
read the arguments according to `arg_format`. -/
def read_response (rcode : PyRCode) (argFormat : ArgFormat) : M PyVal := do
  let actualRcode ← read_byte
  if pyRCodeNe rcode actualRcode then
    mthrow (rcodeMismatchErr rcode)
  match argFormat with
  | .noFmt => pure .pyTuple
  | .fmtB => do
      let r ← read_byte
      pure (.pyInt r)
  | .varlen => do
      let r ← read_varlen
      pure (.pyStr r)

/-!  ### Command codec methods (`bt_commands.py`) -/

/-- `util.bit_is_set(bitfield, mask)`. -/
def bit_is_set (bitfield mask : Nat) : Bool :=
  bitfield &&& mask == mask

/-- `GetStatusCommand.STATUS_BITFIELDS`: the eight single-bit masks. -/
def STATUS_BITFIELDS : List Nat :=
  [1 <<< 0, 1 <<< 1, 1 <<< 2, 1 <<< 3, 1 <<< 4, 1 <<< 5, 1 <<< 6, 1 <<< 7]

/-- `GetStatusCommand.unpack_status_bitfields`. -/
def unpack_status_bitfields (val : Nat) : List Bool :=
  STATUS_BITFIELDS.map (fun f => bit_is_set val f)

/-- `ShimmerCommand.send` of the embedded command shapes. -/
def BtCommand.send : BtCommand → M Unit
  | .oneShot cmdCode => write_command cmdCode .noArg
  | .getString reqCode _ => write_command reqCode .noArg
  | .setString reqCode payload => write_command reqCode (.varlen payload)
  | .getStatus => write_command GET_STATUS_COMMAND .noArg

/-- `ShimmerCommand.receive` of the embedded command shapes.  The base
class returns `None`; `GetStringCommand` reads a varlen string response;
`GetStatusCommand` reads a one-byte bitfield and unpacks it. -/
def BtCommand.receive : BtCommand → M PyVal
  | .oneShot _ => pure .pyNone
  | .setString _ _ => pure .pyNone
  | .getString _ respCode => do
      let strBin ← read_response (.bytes respCode) .varlen
      pure strBin
  | .getStatus => do
      let bitfields ← read_response (.bytes FULL_STATUS_RESPONSE) .fmtB
      match bitfields with
      | .pyInt n => pure (.pyBools (unpack_status_bitfields n.toNat))
      | v => pure v

/-!  ### The dispatch engine (`bt_api.py`, `BluetoothRequestHandler`) -/

/-- `Queue.get_nowait` on the Ack Queue (raises `queue.Empty` when empty). -/
def ackGetNowait : M (Nat × Option (BtCommand × Nat)) := do
  let s ← mget
  match s.ackQueue with
  | [] => mthrow .emptyError
  | e :: rest =>
      mset { s with ackQueue := rest }
      pure e

/-- `Queue.get_nowait` on the Response Queue. -/
def respGetNowait : M (BtCommand × Nat) := do
  let s ← mget
  match s.respQueue with
  | [] => mthrow .emptyError
  | e :: rest =>
      mset { s with respQueue := rest }
      pure e

/-- `PeekQueue.peek` on the Response Queue: front entry or `None`, no pop. -/
def respPeek : M (Option (BtCommand × Nat)) := do
  let s ← mget
  pure s.respQueue.head?

/-- `RequestCompletion.set_completed`. -/
def setCompleted (cid : Nat) : M Unit :=
  mmodify fun s => { s with complStore := upd s.complStore cid true }

/-- `RequestResponse.set_result`. -/
def setResult (rid : Nat) (v : PyVal) : M Unit :=
  mmodify fun s => { s with respStore := upd s.respStore rid (some v) }

/-- `BluetoothRequestHandler._process_ack`: consume the ACK byte, pop the
oldest Ack-Queue entry, push its command/response pair (if any) onto the
Response Queue, and mark the completion fulfilled. -/
def process_ack : M Unit := do
  read_ack
  let (complObj, cmdRespPair) ← ackGetNowait
  match cmdRespPair with
  | some pair =>
      -- `if None not in cmd_resp_pair:` — we are expecting a response
      mmodify fun s => { s with respQueue := s.respQueue ++ [pair] }
  | none => pure ()
  setCompleted complObj

/-- The `for channel_type, channel_dtype in self._types:` loop of
`DataPacket.receive`: read `size` bytes per channel and decode them. -/
def dataPacketChannels : List (EChannelType × ChannelDataType) → M (List (EChannelType × Int))
  | [] => pure []
  | (channelType, channelDtype) :: rest => do
      let dataBin ← sread channelDtype.size
      match channelDtype.decode dataBin with
      | .error e => mthrow e
      | .ok v =>
          let vs ← dataPacketChannels rest
          pure ((channelType, v) :: vs)

/-- `DataPacket.receive`: consume the `DATA_PACKET` leading byte (via
`read_response` with the `int` code `0x00`), then decode every configured
channel in order.  The resulting association list is the `_values` dict. -/
def dataPacketReceive (types : List (EChannelType × ChannelDataType)) :
    M (List (EChannelType × Int)) := do
  let _ ← read_response (.int DATA_PACKET) .noFmt
  dataPacketChannels types

/-- `BluetoothRequestHandler._process_data_packet`: build the packet from
`_stream_types` and invoke every registered stream callback with it. -/
def process_data_packet : M Unit := do
  let s ← mget
  let packet ← dataPacketReceive s.streamTypes
  mmodify fun s2 =>
    { s2 with streamCalls := s2.streamCalls ++ s2.streamCbs.map (fun cb => (cb, packet)) }

/-- `BluetoothRequestHandler._process_status_update`: decode the pushed
status via a fresh `GetStatusCommand().receive(...)` and invoke every
registered status callback. -/
def process_status_update : M Unit := do
  let r ← BtCommand.getStatus.receive
  let bs := match r with
    | .pyBools l => l
    | _ => []
  mmodify fun s =>
    { s with statusCalls := s.statusCalls ++ s.statusCbs.map (fun cb => (cb, bs)) }

/-- The part of `_process_resp_from_queue` after the pop: peek and compare
the declared response signature, decode via the command, and fulfil its
`RequestResponse`. -/
def process_resp_body (cmd : BtCommand) (returnObj : Nat) : M Unit := do
  let respCode := cmd.get_response_code
  let peek ← speek respCode.length
  if peek ≠ respCode then
    mthrow .valueError
  let result ← cmd.receive
  setResult returnObj result

/-- `BluetoothRequestHandler._process_resp_from_queue`: pop the front of
the Response Queue, then handle the response frame for the popped entry. -/
def process_resp_from_queue : M Unit := do
  let (cmd, returnObj) ← respGetNowait
  process_resp_body cmd returnObj

/-- `BluetoothRequestHandler._process_status_response`: if the front of
the Response Queue (peek, no pop) is a pending `GetStatusCommand`, handle
the frame as a regular queued response, else as a pushed status update. -/
def process_status_response : M Unit := do
  let cmdRespPair ← respPeek
  match cmdRespPair with
  | some (cmd, _) =>
      if cmd.isGetStatus then
        process_resp_from_queue
      else
        process_status_update
  | none => process_status_update

/-- `BluetoothRequestHandler._process_in_stream_resp`: peek the two-byte
signature; a full status-response signature goes to the status handler,
anything else is processed as a queued response. -/
def process_in_stream_resp : M Unit := do
  let peek ← speek FULL_STATUS_RESPONSE.length
  if peek = FULL_STATUS_RESPONSE then
    process_status_response
  else
    process_resp_from_queue

/-- `BluetoothRequestHandler.process_single_input_event`: classify one
frame by its peeked leading byte. -/
def process_single_input_event : M Unit := do
  let peek ← peek_byte
  if peek = ACK_COMMAND_PROCESSED then
    process_ack
  else if peek = DATA_PACKET then
    process_data_packet
  else if peek = INSTREAM_CMD_RESPONSE then
    process_in_stream_resp
  else
    process_resp_from_queue

/-- The allocation + enqueue part of `BluetoothRequestHandler.queue_command`
(everything before `cmd.send(self._serial)`): create the completion, create
the response object when the command has one, and append the entry to the
Ack Queue.  Returns `(completion id, optional response id)`. -/
def queue_command_enqueue (cmd : BtCommand) : M (Nat × Option Nat) := do
  let s ← mget
  let complObj := s.nextCompl
  if cmd.has_response then
    let respObj := s.nextResp
    let cmdRespPair := some (cmd, respObj)
    mset { s with
      nextCompl := complObj + 1
      nextResp := respObj + 1
      complStore := upd s.complStore complObj false
      respStore := upd s.respStore respObj none
      ackQueue := s.ackQueue ++ [(complObj, cmdRespPair)] }
    pure (complObj, some respObj)
  else
    mset { s with
      nextCompl := complObj + 1
      complStore := upd s.complStore complObj false
      ackQueue := s.ackQueue ++ [(complObj, none)] }
    pure (complObj, none)

/-- `BluetoothRequestHandler.queue_command`: enqueue on the Ack Queue
first, then encode and send the request bytes. -/
def queue_command (cmd : BtCommand) : M (Nat × Option Nat) := do
  let r ← queue_command_enqueue cmd
  cmd.send
  pure r

/-- The first drain loop of `clear_queues`: pop every Ack-Queue entry,
complete it, and set its response (if any) to `None`. -/
def drainAck : List (Nat × Option (BtCommand × Nat)) → HState → HState
  | [], s => s
  | (compl, pairOpt) :: rest, s =>
      let s1 := { s with complStore := upd s.complStore compl true }
      let s2 := match pairOpt with
        | some (_, resp) => { s1 with respStore := upd s1.respStore resp (some .pyNone) }
        | none => s1
      drainAck rest s2

/-- The second drain loop of `clear_queues`: pop every Response-Queue entry
and set its response to `None`. -/
def drainResp : List (BtCommand × Nat) → HState → HState
  | [], s => s
  | (_, resp) :: rest, s =>
      drainResp rest { s with respStore := upd s.respStore resp (some .pyNone) }

/-- `BluetoothRequestHandler.clear_queues`: drain both queues, fulfilling
every completion and setting every response result to `None`. -/
def clear_queues : M Unit := do
  let s ← mget
  let s1 := drainAck s.ackQueue { s with ackQueue := [] }
  let s2 := drainResp s1.respQueue { s1 with respQueue := [] }
  mset s2

/-!  ### Sensor groups and the enable bitfield (`dev/channels.py`) -/

/-- `ESensorGroup`: the 22 sensor groups, in Python declaration (and hence
enum-iteration) order. -/
inductive ESensorGroup where
  | ACCEL_LN
  | BATTERY
  | CH_A7
  | CH_A6
  | CH_A15
  | CH_A12
  | CH_A13
  | CH_A14
  | STRAIN
  | CH_A1
  | GSR
  | GYRO
  | ACCEL_WR
  | MAG
  | ACCEL_MPU
  | MAG_MPU
  | TEMP
  | PRESSURE
  | EXG1_24BIT
  | EXG1_16BIT
  | EXG2_24BIT
  | EXG2_16BIT
  deriving DecidableEq, Fintype, Repr

/-- `for sensor in ESensorGroup` iterates in declaration order. -/
def allSensorGroups : List ESensorGroup :=
  [.ACCEL_LN, .BATTERY, .CH_A7, .CH_A6, .CH_A15, .CH_A12, .CH_A13, .CH_A14,
   .STRAIN, .CH_A1, .GSR, .GYRO, .ACCEL_WR, .MAG, .ACCEL_MPU, .MAG_MPU,
   .TEMP, .PRESSURE, .EXG1_24BIT, .EXG1_16BIT, .EXG2_24BIT, .EXG2_16BIT]

/-- `SensorBitAssignments`: the single-bit mask of each sensor group in
the three-byte enable bitfield. -/
def SensorBitAssignments : ESensorGroup → Nat
  | .ACCEL_LN => 0x80 <<< (0 * 8)
  | .GYRO => 0x40 <<< (0 * 8)
  | .MAG => 0x20 <<< (0 * 8)
  | .EXG1_24BIT => 0x10 <<< (0 * 8)
  | .EXG2_24BIT => 0x08 <<< (0 * 8)
  | .GSR => 0x04 <<< (0 * 8)
  | .CH_A7 => 0x02 <<< (0 * 8)
  | .CH_A6 => 0x01 <<< (0 * 8)
  | .STRAIN => 0x80 <<< (1 * 8)
  | .BATTERY => 0x20 <<< (1 * 8)
  | .ACCEL_WR => 0x10 <<< (1 * 8)
  | .CH_A15 => 0x08 <<< (1 * 8)
  | .CH_A1 => 0x04 <<< (1 * 8)
  | .CH_A12 => 0x02 <<< (1 * 8)
  | .CH_A13 => 0x01 <<< (1 * 8)
  | .CH_A14 => 0x80 <<< (2 * 8)
  | .ACCEL_MPU => 0x40 <<< (2 * 8)
  | .MAG_MPU => 0x20 <<< (2 * 8)
  | .EXG1_16BIT => 0x10 <<< (2 * 8)
  | .EXG2_16BIT => 0x08 <<< (2 * 8)
  | .PRESSURE => 0x04 <<< (2 * 8)
  | .TEMP => 0x02 <<< (2 * 8)

/-- `SensorOrder`: the canonical appearance order.  The dict has **no**
entry for `TEMP`, so the lookup is partial. -/
def SensorOrder : ESensorGroup → Option Nat
  | .ACCEL_LN => some 1
  | .BATTERY => some 2
  | .CH_A7 => some 3
  | .CH_A6 => some 4
  | .CH_A15 => some 5
  | .CH_A12 => some 6
  | .CH_A13 => some 7
  | .CH_A14 => some 8
  | .STRAIN => some 9
  | .CH_A1 => some 10
  | .GSR => some 11
  | .GYRO => some 12
  | .ACCEL_WR => some 13
  | .MAG => some 14
  | .ACCEL_MPU => some 15
  | .MAG_MPU => some 16
  | .PRESSURE => some 17
  | .EXG1_24BIT => some 18
  | .EXG1_16BIT => some 19
  | .EXG2_24BIT => some 20
  | .EXG2_16BIT => some 21
  | .TEMP => none

/-- `ENABLED_SENSORS_LEN`. -/
def ENABLED_SENSORS_LEN : Nat := 0x03

/-- `SENSOR_DTYPE = ChannelDataType(size=ENABLED_SENSORS_LEN, signed=False, le=True)`. -/
def SENSOR_DTYPE : ChannelDataType :=
  ⟨ENABLED_SENSORS_LEN, false, true⟩

/-- `sensors2bitfield`: OR together each sensor's bit mask. -/
def sensors2bitfield (sensors : List ESensorGroup) : Nat :=
  sensors.foldl (fun bitfield sensor => bitfield ||| SensorBitAssignments sensor) 0

/-- `serialize_sensorlist`: encode the bitfield with `SENSOR_DTYPE`. -/
def serialize_sensorlist (sensors : List ESensorGroup) : Except PyErr Bytes :=
  SENSOR_DTYPE.encode (sensors2bitfield sensors)

/-- The total sort key used once every list element is known to have an
order entry (`sort_key_fn`); the `TEMP` value is irrelevant there. -/
def sortKeyFn (x : ESensorGroup) : Nat :=
  (SensorOrder x).getD 0

/-- The ordering relation Python's stable `sorted` uses with `sort_key_fn`. -/
def sensorLe (a b : ESensorGroup) : Prop :=
  sortKeyFn a ≤ sortKeyFn b

instance : DecidableRel sensorLe := fun a b => by
  unfold sensorLe; infer_instance

instance : IsTotal ESensorGroup sensorLe :=
  ⟨fun a b => Nat.le_total (sortKeyFn a) (sortKeyFn b)⟩

instance : IsTrans ESensorGroup sensorLe :=
  ⟨fun _ _ _ h1 h2 => Nat.le_trans h1 h2⟩

/-- `sort_sensors`: Python's `sorted(sensors, key=sort_key_fn)`.  The key
function raises `KeyError` on any sensor absent from `SensorOrder`
(i.e. `TEMP`); otherwise the call returns the stable sort by key. -/
def sort_sensors (sensors : List ESensorGroup) : Except PyErr (List ESensorGroup) :=
  if sensors.all (fun s => (SensorOrder s).isSome) then
    .ok (List.insertionSort sensorLe sensors)
  else
    .error .keyError

/-- `bitfield2sensors`: test each known bit in enum order, then sort. -/
def bitfield2sensors (bitfield : Nat) : Except PyErr (List ESensorGroup) :=
  let enabledSensors := allSensorGroups.filter
    (fun sensor => bit_is_set bitfield (SensorBitAssignments sensor))
  sort_sensors enabledSensors

/-- `deserialize_sensors`: decode the three-byte bitfield, then
`bitfield2sensors`. -/
def deserialize_sensors (bitfieldBin : Bytes) : Except PyErr (List ESensorGroup) := do
  let bitfield ← SENSOR_DTYPE.decode bitfieldBin
  bitfield2sensors bitfield.toNat

/-- `deserialize_sensors(serialize_sensorlist(S))`, with the Python
exception flow made explicit. -/
def sensorRoundTrip (sensors : List ESensorGroup) : Except PyErr (List ESensorGroup) := do
  let bin ← serialize_sensorlist sensors
  deserialize_sensors bin

/-!  ### Tick conversions (`dev/base.py`) and `SetRealTimeClockCommand` -/

/-- `DEV_CLOCK_RATE = 32768.0` (exactly representable; we model the float
arithmetic of the conversions over `ℚ`). -/
def DEV_CLOCK_RATE : ℚ := 32768

/-- Python's `round`: round half to even (banker's rounding). -/
def pyRound (q : ℚ) : ℤ :=
  let n := ⌊q⌋
  let r := q - n
  if r < 1 / 2 then n
  else if 1 / 2 < r then n + 1
  else if n % 2 = 0 then n else n + 1

/-- Python's `int(...)` on a number: truncation toward zero. -/
def pyTrunc (q : ℚ) : ℤ := if 0 ≤ q then ⌊q⌋ else ⌈q⌉

/-- `sec2ticks`: `round(t_sec * DEV_CLOCK_RATE)`. -/
def sec2ticks (tSec : ℚ) : ℤ := pyRound (tSec * DEV_CLOCK_RATE)

/-- `SetRealTimeClockCommand.__init__` stores `self._time = int(ts_sec)`;
`send` transmits `sec2ticks(self._time)`.  This is the tick value packed
into the 8-byte `<Q` argument. -/
def setRealTimeClockTicks (tsSec : ℚ) : ℤ :=
  sec2ticks ((pyTrunc tsSec : ℤ) : ℚ)

/-- `SetRealTimeClockCommand.send`: `write_command(SET_RWC_COMMAND, '<Q', t_ticks)`
produces the command byte followed by the 8-byte little-endian ticks. -/
def setRealTimeClockSend (tsSec : ℚ) : Except PyErr Bytes := do
  let tTicks := setRealTimeClockTicks tsSec
  let packed ← structPackInt 8 false true tTicks
  pure (SET_RWC_COMMAND :: packed)

/-!  ### Dock CRC protocol (`uart/dock_serial.py`) -/

/-- `CRC_INIT` (`uart/dock_const.py`). -/
def CRC_INIT : Nat := 0xB0CA

/-- One shift step of `binascii.crc_hqx` (CRC-16/CCITT, polynomial
`0x1021`, no reflection). -/
def crcShift (c : Nat) : Nat :=
  if c &&& 0x8000 ≠ 0 then ((c <<< 1) ^^^ 0x1021) &&& 0xFFFF
  else (c <<< 1) &&& 0xFFFF

/-- `binascii.crc_hqx(data, crc)`: xor each byte into the high half of the
running CRC, then apply eight polynomial shift steps. -/
def crc_hqx (data : Bytes) (crc : Nat) : Nat :=
  data.foldl (fun c b => crcShift^[8] (c ^^^ (b <<< 8))) crc

/-- `generate_crc(msg, crc_init)`: pad odd-length messages with one zero
byte, compute `crc_hqx`, and emit the CRC as two little-endian bytes. -/
def generate_crc (msg : Bytes) (crcInit : Nat) : Bytes :=
  let msg2 := if msg.length % 2 ≠ 0 then msg ++ [0x00] else msg
  let crc := crc_hqx msg2 crcInit
  natToBytesLE 2 crc

/-- The observable state of a `DockSerial` object: remaining input bytes,
the recording flag, and the bytes recorded since `start_read_crc_verify`. -/
structure DockState where
  input : Bytes
  recordRead : Bool
  readCrcBuf : Bytes
  deriving DecidableEq, Repr

/-- `DockSerial.read`: read from the stream (raising `ReadAbort` when the
transport cannot supply enough bytes) and append to the CRC buffer while
recording. -/
def dockRead (n : Nat) (s : DockState) : Except PyErr (Bytes × DockState) :=
  if n ≤ s.input.length then
    let data := s.input.take n
    .ok (data,
      { s with
        input := s.input.drop n
        readCrcBuf := if s.recordRead then s.readCrcBuf ++ data else s.readCrcBuf })
  else
    .error .readAbort

/-- `DockSerial.start_read_crc_verify`: start recording with a fresh buffer. -/
def startReadCrcVerify (s : DockState) : DockState :=
  { s with recordRead := true, readCrcBuf := [] }

/-- `DockSerial.end_read_crc_verify`: stop recording, recompute the CRC
over the recorded bytes, read the two trailer bytes via the *base class*
`read` (so they are not recorded), and raise `IOError` on mismatch. -/
def endReadCrcVerify (crcInit : Nat) (s : DockState) : Except PyErr DockState :=
  let s1 := { s with recordRead := false }
  let expCrc := generate_crc s1.readCrcBuf crcInit
  if expCrc.length ≤ s1.input.length then
    let actCrc := s1.input.take expCrc.length
    if expCrc ≠ actCrc then
      .error .ioError
    else
      .ok { s1 with input := s1.input.drop expCrc.length }
  else
    .error .readAbort

/-!  ### Helper definitions and lemmas for the theorems -/

/-- A fresh handler as built by `BluetoothRequestHandler.__init__`, with
the given pending transport input. -/
def initState (inp : Bytes) : HState :=
  { input := inp, written := [], ackQueue := [], respQueue := [],
    complStore := fun _ => false, respStore := fun _ => none,
    nextCompl := 0, nextResp := 0, streamTypes := [],
    statusCbs := [], streamCbs := [], statusCalls := [], streamCalls := [] }

theorem M.bind_eq {α β : Type} (x : M α) (f : α → M β) : x >>= f = mbind x f := rfl

theorem M.pure_eq {α : Type} (a : α) : (pure a : M α) = mret a := rfl

/-!  ### Claim C8 — `write_varlen` -/

/-- **C8.**  For every byte string `a`: if `len(a) ≤ 255`, `write_varlen(a)`
writes exactly one length byte holding `len(a)` followed by the bytes of
`a`; if `len(a) > 255`, it raises `ValueError` and writes no bytes at all
(the handler state is completely unchanged). -/
theorem C8_write_varlen (arg : Bytes) (s : HState) :
    (arg.length ≤ 255 →
      runM (write_varlen arg) s =
        (.ok (), { s with written := s.written ++ arg.length :: arg })) ∧
    (255 < arg.length →
      runM (write_varlen arg) s = (.error .valueError, s)) := by
  constructor
  · intro h
    simp only [runM, write_varlen, write_byte, swrite, M.bind_eq, M.pure_eq,
      mbind, mget, mset, mret, mthrow, mmodify]
    rw [if_neg (by omega), if_neg (by omega)]
    simp [mbind, mret, mmodify]
  · intro h
    simp only [runM, write_varlen, M.bind_eq, M.pure_eq, mbind, mthrow]
    rw [if_pos (by omega)]
    rfl

/-- Witness for C8 at concrete inputs: a 3-byte argument is written with
its length prefix; a 300-byte argument is rejected with the state intact. -/
theorem C8_write_varlen_witness :
    runM (write_varlen [1, 2, 3]) (initState []) =
      (.ok (), { initState [] with written := [3, 1, 2, 3] }) ∧
    runM (write_varlen (List.replicate 300 0)) (initState []) =
      (.error .valueError, initState []) := by
  constructor
  · have h := (C8_write_varlen [1, 2, 3] (initState [])).1 (by decide)
    rw [h]
    rfl
  · exact (C8_write_varlen (List.replicate 300 0) (initState [])).2
      (by rw [List.length_replicate]; omega)

/-!  ### Claim C9 — dock CRC -/

/-- **C9.**  The dock CRC trailer is CRC16-CCITT with initial value
`0xB0CA`, computed after padding odd-length frames with one zero byte and
emitted little-endian: `generate_crc(24 03 02 01 03, B0CA) = CA DC`; and
`end_read_crc_verify` raises the checksum `IOError` iff the two trailer
bytes on the stream differ from the CRC recomputed over the bytes
recorded since `start_read_crc_verify`. -/
theorem C9_dock_crc :
    generate_crc [0x24, 0x03, 0x02, 0x01, 0x03] CRC_INIT = [0xCA, 0xDC] ∧
    (∀ (ci : Nat) (s : DockState), 2 ≤ s.input.length →
      (endReadCrcVerify ci s = .error .ioError ↔
        s.input.take 2 ≠ generate_crc s.readCrcBuf ci)) ∧
    (∀ (n : Nat) (s : DockState), s.recordRead = true → n ≤ s.input.length →
      dockRead n s =
        .ok (s.input.take n,
          { s with input := s.input.drop n,
                   readCrcBuf := s.readCrcBuf ++ s.input.take n })) := by
  refine ⟨by decide, ?_, ?_⟩
  · intro ci s hlen
    have h2 : (generate_crc s.readCrcBuf ci).length = 2 := by
      simp [generate_crc, natToBytesLE]
    simp only [endReadCrcVerify]
    rw [h2, if_pos hlen]
    by_cases hq : s.input.take 2 = generate_crc s.readCrcBuf ci
    · simp [hq]
    · have hq' : generate_crc s.readCrcBuf ci ≠ s.input.take 2 := fun h => hq h.symm
      simp [hq, hq']
  · intro n s hrec hlen
    simp only [dockRead]
    rw [if_pos hlen, hrec]
    simp

/-- Witness for C9 at concrete inputs: the reference frame with the correct
trailer verifies, and with a corrupted trailer raises the checksum error. -/
theorem C9_dock_crc_witness :
    endReadCrcVerify CRC_INIT
        ⟨[0xCA, 0xDD], false, [0x24, 0x03, 0x02, 0x01, 0x03]⟩ = .error .ioError ∧
    dockRead 2 ⟨[0x24, 0x03], true, []⟩ = .ok ([0x24, 0x03], ⟨[], true, [0x24, 0x03]⟩) := by
  constructor
  · exact (C9_dock_crc.2.1 CRC_INIT ⟨[0xCA, 0xDD], false, [0x24, 0x03, 0x02, 0x01, 0x03]⟩
      (by decide)).mpr (by decide)
  · exact C9_dock_crc.2.2 2 ⟨[0x24, 0x03], true, []⟩ rfl (by decide)

/-!  ### Claim C6 — tick conversion and `SetRealTimeClockCommand` -/

/-- `pyRound` of an integer value is that integer. -/
theorem pyRound_intCast (n : ℤ) : pyRound (n : ℚ) = n := by
  unfold pyRound
  rw [Int.floor_intCast]
  rw [if_pos (by rw [sub_self]; norm_num)]

/-- `pyTrunc` of an integer value is that integer. -/
theorem pyTrunc_intCast (n : ℤ) : pyTrunc (n : ℚ) = n := by
  unfold pyTrunc
  rcases le_or_lt 0 (n : ℚ) with h | h
  · rw [if_pos h, Int.floor_intCast]
  · rw [if_neg (not_le.mpr h), Int.ceil_intCast]

/-- **C6 counterexample.**  At the caller timestamp `t = 3/2` seconds (a
value exactly representable as a float), the tick value transmitted by
`SetRealTimeClockCommand` is `32768`, while `round(t * 32768) = 49152`:
the command truncates the timestamp with `int(ts_sec)` before converting,
so the claim `transmitted ticks = round(t * 32768)` fails. -/
theorem C6_counterexample :
    setRealTimeClockTicks (3 / 2) = 32768 ∧
    pyRound ((3 / 2) * DEV_CLOCK_RATE) = 49152 ∧
    setRealTimeClockTicks (3 / 2) ≠ pyRound ((3 / 2) * DEV_CLOCK_RATE) := by
  have htr : pyTrunc (3 / 2 : ℚ) = 1 := by
    unfold pyTrunc
    rw [if_pos (by norm_num), Int.floor_eq_iff]
    norm_num
  have h1 : setRealTimeClockTicks (3 / 2) = 32768 := by
    unfold setRealTimeClockTicks sec2ticks
    rw [htr]
    rw [show ((1 : ℤ) : ℚ) * DEV_CLOCK_RATE = ((32768 : ℤ) : ℚ) by
      unfold DEV_CLOCK_RATE; norm_num]
    rw [pyRound_intCast]
  have h2 : pyRound ((3 / 2) * DEV_CLOCK_RATE) = 49152 := by
    rw [show ((3 / 2 : ℚ)) * DEV_CLOCK_RATE = ((49152 : ℤ) : ℚ) by
      unfold DEV_CLOCK_RATE; norm_num]
    rw [pyRound_intCast]
  exact ⟨h1, h2, by rw [h1, h2]; decide⟩

/-- **C6 (amended).**  `sec2ticks(t) = round(t * 32768)` (with Python's
round-half-to-even rounding); but the tick value transmitted by
`SetRealTimeClockCommand` is `round(trunc(t) * 32768) = trunc(t) * 32768`
— the caller timestamp is truncated to a whole number of seconds first.
For the whole-second timestamp `10` the transmitted frame is the test
fixture `8F 00 00 05 00 00 00 00 00`. -/
theorem C6_amended (t : ℚ) :
    sec2ticks t = pyRound (t * 32768) ∧
    setRealTimeClockTicks t = pyTrunc t * 32768 ∧
    setRealTimeClockSend 10 =
      .ok [SET_RWC_COMMAND, 0x00, 0x00, 0x05, 0x00, 0x00, 0x00, 0x00, 0x00] := by
  have hticks : ∀ u : ℚ, setRealTimeClockTicks u = pyTrunc u * 32768 := by
    intro u
    show pyRound ((pyTrunc u : ℚ) * DEV_CLOCK_RATE) = pyTrunc u * 32768
    rw [show ((pyTrunc u : ℚ)) * DEV_CLOCK_RATE = ((pyTrunc u * 32768 : ℤ) : ℚ) by
      unfold DEV_CLOCK_RATE; push_cast; ring]
    rw [pyRound_intCast]
  refine ⟨rfl, hticks t, ?_⟩
  have h10 : setRealTimeClockTicks 10 = 327680 := by
    rw [hticks 10]
    rw [show (10 : ℚ) = ((10 : ℤ) : ℚ) by norm_num, pyTrunc_intCast]
    decide
  unfold setRealTimeClockSend
  rw [h10]
  decide

/-!  ### Claim C7 — data-packet decoding -/

/-- The configured stream layout of the C7 scenario, matching
`ChDataTypeAssignment[TIMESTAMP]` and `ChDataTypeAssignment[INTERNAL_ADC_A1]`. -/
def c7StreamTypes : List (EChannelType × ChannelDataType) :=
  [(.TIMESTAMP, ⟨3, false, true⟩), (.INTERNAL_ADC_A1, ⟨2, false, true⟩)]

/-- **C7.**  With layout `[(TIMESTAMP, 3-byte LE unsigned), (INTERNAL_ADC,
2-byte LE unsigned)]`, the frame `00 DE D0 B2 26 07` decodes to
`TIMESTAMP = 0xB2D0DE` and `ADC = 0x0726`; the 3-byte unsigned field is
zero-extended to the 4-byte power-of-two width before the integer
deserialization. -/
theorem C7_data_packet :
    (runM (dataPacketReceive c7StreamTypes)
        (initState [0x00, 0xDE, 0xD0, 0xB2, 0x26, 0x07])).1 =
      .ok [(.TIMESTAMP, 0xB2D0DE), (.INTERNAL_ADC_A1, 0x0726)] ∧
    ChDataTypeAssignment .TIMESTAMP = some ⟨3, false, true⟩ ∧
    ChDataTypeAssignment .INTERNAL_ADC_A1 = some ⟨2, false, true⟩ ∧
    (ChannelDataType.mk 3 false true).valid_size = 4 ∧
    (ChannelDataType.mk 3 false true).extend_value [0xDE, 0xD0, 0xB2] =
      [0xDE, 0xD0, 0xB2, 0x00] ∧
    (ChannelDataType.mk 3 false true).decode [0xDE, 0xD0, 0xB2] =
      structUnpackInt 4 false true [0xDE, 0xD0, 0xB2, 0x00] ∧
    (ChannelDataType.mk 3 false true).decode [0xDE, 0xD0, 0xB2] = .ok 0xB2D0DE := by
  refine ⟨?_, ?_, ?_, ?_, ?_, ?_, ?_⟩ <;> decide

/-!  ### Claim C1 — in-stream frame disambiguation (code bug) -/

/-- The C1 failing scenario: a pushed status frame `8A 71 21` arrives
while no response is pending and one status callback is registered. -/
def c1PushState : HState :=
  { initState [0x8A, 0x71, 0x21] with statusCbs := [0] }

/-- The C1 queued scenario: the same frame arrives while the front of the
Response Queue is a pending `GetStatusCommand`. -/
def c1QueuedState : HState :=
  { initState [0x8A, 0x71, 0x21] with respQueue := [(.getStatus, 0)] }

/-- **C1 (code bug).**  The classifier does route the frame as the claim
says, but both branches then die inside `read_response`:
`GetStatusCommand.receive` passes its *bytes* response code `8A 71` to
`read_response`, which compares it against the single *int* byte read
from the stream; a `bytes` value never equals an `int` in Python, so the
mismatch branch raises (`TypeError`, from formatting the bytes with
`:x`).  On the unsolicited-push side no status callback is ever invoked
(the Response Queue is at least left untouched); on the queued side the
entry is popped but its `PendingResponse` is never fulfilled. -/
theorem C1_status_dispatch_bug :
    (runM process_single_input_event c1PushState).1 = .error .typeError ∧
    (runM process_single_input_event c1PushState).2.statusCalls = [] ∧
    (runM process_single_input_event c1PushState).2.respQueue = [] ∧
    unpack_status_bitfields 0x21 =
      [true, false, false, false, false, true, false, false] ∧
    (runM process_single_input_event c1QueuedState).1 = .error .typeError ∧
    (runM process_single_input_event c1QueuedState).2.respStore 0 = none := by
  refine ⟨?_, ?_, ?_, ?_, ?_, ?_⟩ <;> decide

/-!  ### Claim C3 — `GetDeviceNameCommand` round trip (code bug) -/

/-- The C3 scenario: queue a `GetDeviceNameCommand`, then process the ACK
frame `FF` and the response frame `7A 05 'S' '_' 'P' 'P' 'G'`. -/
def c3Prog : M Unit := do
  let _ ← queue_command GetDeviceNameCommand
  process_single_input_event
  process_single_input_event

/-- Initial state for the C3 scenario (the two frames pending on input). -/
def c3State : HState :=
  initState [0xFF, 0x7A, 0x05, 0x53, 0x5F, 0x50, 0x50, 0x47]

/-- **C3 (code bug).**  The command's declared signature `7A` matches the
received signature byte exactly, and the expected decode is the string
`"S_PPG"`; but `GetStringCommand.receive` hands its *bytes* `_rcode` to
`read_response`, whose `rcode != actual_rcode` comparison against the
*int* byte read from the stream is always true for a bytes object, so
processing the response frame raises (`TypeError`) instead of fulfilling
the `PendingResponse` — which stays unset while the ACK was consumed
normally. -/
theorem C3_get_device_name_bug :
    GetDeviceNameCommand.get_response_code = [0x7A] ∧
    c3State.input[1]? = some 0x7A ∧
    (runM c3Prog c3State).1 = .error .typeError ∧
    (runM c3Prog c3State).2.written = [GET_SHIMMERNAME_COMMAND] ∧
    (runM c3Prog c3State).2.complStore 0 = true ∧
    (runM c3Prog c3State).2.respStore 0 = none := by
  refine ⟨?_, ?_, ?_, ?_, ?_, ?_⟩ <;> decide

/-!  ### Claim C2 — ACK processing and Response-Queue growth

Infrastructure: `PreserveQ x` states that running `x` never changes the
Response Queue, whatever the outcome. -/

/-- The operation `x` leaves the Response Queue untouched on every state,
also when it raises. -/
def PreserveQ {α : Type} (x : M α) : Prop :=
  ∀ s : HState, ((x s).2).respQueue = s.respQueue

theorem preserveQ_mbind {α β : Type} {x : M α} {f : α → M β}
    (hx : PreserveQ x) (hf : ∀ a, PreserveQ (f a)) : PreserveQ (mbind x f) := by
  intro s
  unfold mbind
  cases hxs : x s with
  | mk r s1 =>
    have h1 : s1.respQueue = s.respQueue := by
      have := hx s; rw [hxs] at this; exact this
    cases r with
    | ok a => simpa [h1] using (hf a s1).trans h1
    | error e => simpa using h1

theorem preserveQ_bind {α β : Type} {x : M α} {f : α → M β}
    (hx : PreserveQ x) (hf : ∀ a, PreserveQ (f a)) : PreserveQ (x >>= f) := by
  rw [M.bind_eq]; exact preserveQ_mbind hx hf

theorem preserveQ_mret {α : Type} (a : α) : PreserveQ (mret a) := fun _ => rfl

theorem preserveQ_pure {α : Type} (a : α) : PreserveQ (pure a : M α) := fun _ => rfl

theorem preserveQ_mthrow {α : Type} (e : PyErr) : PreserveQ (mthrow e : M α) := fun _ => rfl

theorem preserveQ_ite {α : Type} {c : Prop} [Decidable c] {x y : M α}
    (hx : PreserveQ x) (hy : PreserveQ y) : PreserveQ (if c then x else y) := by
  by_cases h : c
  · simpa [h] using hx
  · simpa [h] using hy

theorem preserveQ_sread (n : Nat) : PreserveQ (sread n) := by
  intro s
  simp only [sread, M.bind_eq, mbind, mget]
  split <;> rfl

theorem preserveQ_speek (n : Nat) : PreserveQ (speek n) := by
  intro s
  simp only [speek, M.bind_eq, mbind, mget]
  split <;> rfl

theorem preserveQ_read_byte : PreserveQ read_byte :=
  preserveQ_bind (preserveQ_sread 1) fun _ => preserveQ_pure _

theorem preserveQ_peek_byte : PreserveQ peek_byte :=
  preserveQ_bind (preserveQ_speek 1) fun _ => preserveQ_pure _

theorem preserveQ_swrite (data : Bytes) : PreserveQ (swrite data) := fun _ => rfl

theorem preserveQ_write_byte (b : Nat) : PreserveQ (write_byte b) := by
  unfold write_byte
  simp only []
  refine preserveQ_ite ?_ ?_
  · exact preserveQ_bind (preserveQ_mthrow _) fun _ => preserveQ_swrite _
  · exact preserveQ_bind (preserveQ_pure _) fun _ => preserveQ_swrite _

theorem preserveQ_read_varlen : PreserveQ read_varlen := by
  unfold read_varlen
  exact preserveQ_bind preserveQ_read_byte fun n =>
    preserveQ_bind (preserveQ_sread n) fun _ => preserveQ_pure _

theorem preserveQ_write_varlen (arg : Bytes) : PreserveQ (write_varlen arg) := by
  unfold write_varlen
  simp only []
  refine preserveQ_ite ?_ ?_
  · exact preserveQ_bind (preserveQ_mthrow _) fun _ =>
      preserveQ_bind (preserveQ_write_byte _) fun _ => preserveQ_swrite _
  · exact preserveQ_bind (preserveQ_pure _) fun _ =>
      preserveQ_bind (preserveQ_write_byte _) fun _ => preserveQ_swrite _

theorem preserveQ_write_command (ccode : Nat) (arg : WriteArg) :
    PreserveQ (write_command ccode arg) := by
  unfold write_command
  refine preserveQ_bind (preserveQ_write_byte _) fun _ => ?_
  cases arg with
  | noArg => exact preserveQ_pure _
  | varlen payload => exact preserveQ_write_varlen payload

theorem preserveQ_readArgs (argFormat : ArgFormat) :
    PreserveQ (α := PyVal)
      (match argFormat with
       | ArgFormat.noFmt => pure PyVal.pyTuple
       | ArgFormat.fmtB => do
           let r ← read_byte
           pure (PyVal.pyInt r)
       | ArgFormat.varlen => do
           let r ← read_varlen
           pure (PyVal.pyStr r)) := by
  cases argFormat with
  | noFmt => exact preserveQ_pure _
  | fmtB => exact preserveQ_bind preserveQ_read_byte fun _ => preserveQ_pure _
  | varlen => exact preserveQ_bind preserveQ_read_varlen fun _ => preserveQ_pure _

theorem preserveQ_read_response (rcode : PyRCode) (argFormat : ArgFormat) :
    PreserveQ (read_response rcode argFormat) := by
  unfold read_response
  refine preserveQ_bind preserveQ_read_byte fun actual => ?_
  simp only []
  refine preserveQ_ite ?_ ?_
  · exact preserveQ_bind (preserveQ_mthrow _) fun _ => preserveQ_readArgs argFormat
  · exact preserveQ_bind (preserveQ_pure _) fun _ => preserveQ_readArgs argFormat

theorem preserveQ_send (cmd : BtCommand) : PreserveQ cmd.send := by
  cases cmd <;> simp only [BtCommand.send] <;> exact preserveQ_write_command _ _

theorem preserveQ_receive (cmd : BtCommand) : PreserveQ cmd.receive := by
  cases cmd with
  | oneShot c => exact preserveQ_pure _
  | setString r p => exact preserveQ_pure _
  | getString r rc =>
      exact preserveQ_bind (preserveQ_read_response _ _) fun _ => preserveQ_pure _
  | getStatus =>
      refine preserveQ_bind (preserveQ_read_response _ _) fun v => ?_
      cases v <;> exact preserveQ_pure _

theorem preserveQ_setResult (rid : Nat) (v : PyVal) : PreserveQ (setResult rid v) :=
  fun _ => rfl

theorem preserveQ_queue_command_enqueue (cmd : BtCommand) :
    PreserveQ (queue_command_enqueue cmd) := by
  intro s
  simp only [queue_command_enqueue, M.bind_eq, M.pure_eq, mbind, mget, mset, mret]
  by_cases h : cmd.has_response <;> simp [h, mbind, mset, mret]

theorem preserveQ_queue_command (cmd : BtCommand) : PreserveQ (queue_command cmd) := by
  unfold queue_command
  exact preserveQ_bind (preserveQ_queue_command_enqueue cmd) fun _ =>
    preserveQ_bind (preserveQ_send cmd) fun _ => preserveQ_pure _

theorem preserveQ_dataPacketChannels (types : List (EChannelType × ChannelDataType)) :
    PreserveQ (dataPacketChannels types) := by
  induction types with
  | nil => exact preserveQ_pure _
  | cons hd tl ih =>
      obtain ⟨ct, dt⟩ := hd
      simp only [dataPacketChannels]
      refine preserveQ_bind (preserveQ_sread _) fun bin => ?_
      cases dt.decode bin with
      | error e => exact preserveQ_mthrow e
      | ok v => exact preserveQ_bind ih fun _ => preserveQ_pure _

theorem preserveQ_dataPacketReceive (types : List (EChannelType × ChannelDataType)) :
    PreserveQ (dataPacketReceive types) := by
  unfold dataPacketReceive
  exact preserveQ_bind (preserveQ_read_response _ _) fun _ =>
    preserveQ_dataPacketChannels types

theorem preserveQ_process_data_packet : PreserveQ process_data_packet := by
  unfold process_data_packet
  refine preserveQ_bind (fun _ => rfl) fun s0 => ?_
  exact preserveQ_bind (preserveQ_dataPacketReceive _) fun _ => fun _ => rfl

theorem preserveQ_process_status_update : PreserveQ process_status_update := by
  unfold process_status_update
  exact preserveQ_bind (preserveQ_receive .getStatus) fun r => fun _ => rfl

theorem preserveQ_process_resp_body (cmd : BtCommand) (rid : Nat) :
    PreserveQ (process_resp_body cmd rid) := by
  unfold process_resp_body
  refine preserveQ_bind (preserveQ_speek _) fun peek => ?_
  simp only []
  refine preserveQ_ite ?_ ?_
  · exact preserveQ_bind (preserveQ_mthrow _) fun _ =>
      preserveQ_bind (preserveQ_receive cmd) fun r => preserveQ_setResult rid r
  · exact preserveQ_bind (preserveQ_pure _) fun _ =>
      preserveQ_bind (preserveQ_receive cmd) fun r => preserveQ_setResult rid r

/-- Running `_process_resp_from_queue` can only remove entries from the
front of the Response Queue, never add any. -/
theorem respQueue_suffix_process_resp (s : HState) :
    ∃ k, s.respQueue = k ++ ((process_resp_from_queue s).2).respQueue := by
  cases hq : s.respQueue with
  | nil =>
      refine ⟨[], ?_⟩
      simp only [process_resp_from_queue, M.bind_eq, mbind, respGetNowait, mget, mset,
        M.pure_eq, mret, mthrow, hq]
      simp [hq]
  | cons e rest =>
      obtain ⟨cmd, rid⟩ := e
      refine ⟨[(cmd, rid)], ?_⟩
      simp only [process_resp_from_queue, M.bind_eq, mbind, respGetNowait, mget, mset,
        M.pure_eq, mret, hq]
      rw [preserveQ_process_resp_body cmd rid { s with respQueue := rest }]
      simp

/-- `drainAck` touches only the completion and response stores. -/
theorem drainAck_fields (l : List (Nat × Option (BtCommand × Nat))) (s : HState) :
    (drainAck l s).respQueue = s.respQueue ∧
    (drainAck l s).ackQueue = s.ackQueue ∧
    (drainAck l s).input = s.input ∧
    (drainAck l s).written = s.written := by
  induction l generalizing s with
  | nil => exact ⟨rfl, rfl, rfl, rfl⟩
  | cons e rest ih =>
      obtain ⟨cid, pairOpt⟩ := e
      cases pairOpt with
      | none => simpa [drainAck] using ih _
      | some p =>
          obtain ⟨c, rid⟩ := p
          simpa [drainAck] using ih _

/-- `drainResp` touches only the response store. -/
theorem drainResp_fields (l : List (BtCommand × Nat)) (s : HState) :
    (drainResp l s).respQueue = s.respQueue ∧
    (drainResp l s).ackQueue = s.ackQueue ∧
    (drainResp l s).complStore = s.complStore := by
  induction l generalizing s with
  | nil => exact ⟨rfl, rfl, rfl⟩
  | cons e rest ih =>
      obtain ⟨c, rid⟩ := e
      simpa [drainResp] using ih _

/-- The explicit run of `clear_queues` (the drains happen on the queues of
the incoming state, with the queue fields emptied first). -/
theorem clear_queues_run (s : HState) :
    clear_queues s =
      (.ok (),
        drainResp (drainAck s.ackQueue { s with ackQueue := [] }).respQueue
          { drainAck s.ackQueue { s with ackQueue := [] } with respQueue := [] }) := rfl

/-- The run of one ACK frame: `process_single_input_event` consumes the
marker byte, pops the oldest Ack-Queue entry, appends its pair (if any)
to the Response Queue, and marks its completion. -/
theorem ack_step (s : HState) (cid : Nat) (pair : Option (BtCommand × Nat))
    (rest : List (Nat × Option (BtCommand × Nat))) (restInput : Bytes)
    (hack : s.ackQueue = (cid, pair) :: rest)
    (hinp : s.input = ACK_COMMAND_PROCESSED :: restInput) :
    process_single_input_event s =
      (.ok (),
        { s with
            input := restInput
            ackQueue := rest
            respQueue := s.respQueue ++ pair.toList
            complStore := upd s.complStore cid true }) := by
  obtain ⟨inp, wr, aq, rq, cs, rs, nc, nr, st, scb, stcb, sc, stc⟩ := s
  simp only at hack hinp
  subst hack hinp
  cases pair with
  | none =>
      simp [process_single_input_event, peek_byte, speek, M.bind_eq, M.pure_eq, mbind, mret,
        mget, mset, mthrow, mmodify, process_ack, read_ack, read_byte, sread,
        ackGetNowait, setCompleted, ACK_COMMAND_PROCESSED]
  | some p =>
      simp [process_single_input_event, peek_byte, speek, M.bind_eq, M.pure_eq, mbind, mret,
        mget, mset, mthrow, mmodify, process_ack, read_ack, read_byte, sread,
        ackGetNowait, setCompleted, ACK_COMMAND_PROCESSED]

/-- Explicit run of the enqueue half of `queue_command`. -/
theorem queue_command_enqueue_run (cmd : BtCommand) (s : HState) :
    queue_command_enqueue cmd s =
      (.ok (s.nextCompl, if cmd.has_response then some s.nextResp else none),
       { s with
           ackQueue := s.ackQueue ++
             [(s.nextCompl, if cmd.has_response then some (cmd, s.nextResp) else none)]
           complStore := upd s.complStore s.nextCompl false
           respStore := if cmd.has_response then upd s.respStore s.nextResp none
             else s.respStore
           nextCompl := s.nextCompl + 1
           nextResp := if cmd.has_response then s.nextResp + 1 else s.nextResp }) := by
  by_cases h : cmd.has_response <;>
    simp [queue_command_enqueue, M.bind_eq, M.pure_eq, mbind, mget, mset, mret, h]

/-- `cmd.send` only appends bytes to the write side of the transport; in
particular it never touches the queues, also when encoding fails. -/
theorem send_only_writes (cmd : BtCommand) (s : HState) :
    ∃ w, ((cmd.send) s).2 = { s with written := s.written ++ w } := by
  cases cmd with
  | oneShot c =>
      by_cases h : c ≥ 256
      · exact ⟨[], by simp [BtCommand.send, write_command, write_byte, swrite, M.bind_eq,
          M.pure_eq, mbind, mret, mthrow, mmodify, h]⟩
      · exact ⟨[c], by simp [BtCommand.send, write_command, write_byte, swrite, M.bind_eq,
          M.pure_eq, mbind, mret, mthrow, mmodify, h]⟩
  | getString r rc =>
      by_cases h : r ≥ 256
      · exact ⟨[], by simp [BtCommand.send, write_command, write_byte, swrite, M.bind_eq,
          M.pure_eq, mbind, mret, mthrow, mmodify, h]⟩
      · exact ⟨[r], by simp [BtCommand.send, write_command, write_byte, swrite, M.bind_eq,
          M.pure_eq, mbind, mret, mthrow, mmodify, h]⟩
  | getStatus =>
      exact ⟨[GET_STATUS_COMMAND], by simp [BtCommand.send, write_command, write_byte, swrite,
        M.bind_eq, M.pure_eq, mbind, mret, mthrow, mmodify, GET_STATUS_COMMAND]⟩
  | setString r p =>
      by_cases h1 : r ≥ 256
      · exact ⟨[], by simp [BtCommand.send, write_command, write_byte, write_varlen, swrite,
          M.bind_eq, M.pure_eq, mbind, mret, mthrow, mmodify, h1]⟩
      · by_cases h2 : p.length > 255
        · exact ⟨[r], by simp [BtCommand.send, write_command, write_byte, write_varlen, swrite,
            M.bind_eq, M.pure_eq, mbind, mret, mthrow, mmodify, h1, h2]⟩
        · refine ⟨r :: p.length :: p, ?_⟩
          simp only [BtCommand.send, write_command, write_byte, write_varlen, swrite,
            M.bind_eq, M.pure_eq, mbind, mret, mthrow, mmodify, h1, h2]
          rw [if_neg (show ¬256 ≤ p.length by omega)]
          simp [mbind, mret, mmodify]

/-- Explicit final state of `queue_command`: the Ack-Queue entry is
appended, the stores gain the fresh completion/response objects, and some
request bytes may have been written. -/
theorem queue_command_state (cmd : BtCommand) (s : HState) :
    ∃ w, ((queue_command cmd) s).2 =
      { s with
          ackQueue := s.ackQueue ++
            [(s.nextCompl, if cmd.has_response then some (cmd, s.nextResp) else none)]
          complStore := upd s.complStore s.nextCompl false
          respStore := if cmd.has_response then upd s.respStore s.nextResp none
            else s.respStore
          nextCompl := s.nextCompl + 1
          nextResp := if cmd.has_response then s.nextResp + 1 else s.nextResp
          written := s.written ++ w } := by
  obtain ⟨w, hw⟩ := send_only_writes cmd
    { s with
        ackQueue := s.ackQueue ++
          [(s.nextCompl, if cmd.has_response then some (cmd, s.nextResp) else none)]
        complStore := upd s.complStore s.nextCompl false
        respStore := if cmd.has_response then upd s.respStore s.nextResp none
          else s.respStore
        nextCompl := s.nextCompl + 1
        nextResp := if cmd.has_response then s.nextResp + 1 else s.nextResp }
  refine ⟨w, ?_⟩
  show (mbind (queue_command_enqueue cmd) _ s).2 = _
  unfold mbind
  rw [queue_command_enqueue_run]
  simp only []
  rw [M.bind_eq]
  unfold mbind
  cases hs : cmd.send
      { s with
          ackQueue := s.ackQueue ++
            [(s.nextCompl, if cmd.has_response then some (cmd, s.nextResp) else none)]
          complStore := upd s.complStore s.nextCompl false
          respStore := if cmd.has_response then upd s.respStore s.nextResp none
            else s.respStore
          nextCompl := s.nextCompl + 1
          nextResp := if cmd.has_response then s.nextResp + 1 else s.nextResp } with
  | mk res s2 =>
      rw [hs] at hw
      cases res <;> simpa using hw

/-- **C2.**  Processing an ACK frame with a non-empty Ack Queue pops
exactly the oldest entry, fulfils its completion, and appends its
`(Command, PendingResponse)` pair to the back of the Response Queue iff
the entry carries one (which `queue_command` arranges iff the command
declares a response); and ACK processing is the only handler operation
that ever adds a Response-Queue entry: `queue_command`, data-packet
processing and status-push processing leave the queue unchanged,
`_process_resp_from_queue` only pops from the front, and `clear_queues`
empties it. -/
theorem C2_ack_processing :
    (∀ (s : HState) (cid : Nat) (pair : Option (BtCommand × Nat)) rest restInput,
      s.ackQueue = (cid, pair) :: rest →
      s.input = ACK_COMMAND_PROCESSED :: restInput →
      process_single_input_event s =
        (.ok (),
          { s with
              input := restInput
              ackQueue := rest
              respQueue := s.respQueue ++ pair.toList
              complStore := upd s.complStore cid true })) ∧
    (∀ (cmd : BtCommand) (s : HState),
      ((queue_command cmd) s).2.respQueue = s.respQueue ∧
      ((queue_command cmd) s).2.ackQueue =
        s.ackQueue ++
          [(s.nextCompl, if cmd.has_response then some (cmd, s.nextResp) else none)]) ∧
    (∀ s : HState, ((process_data_packet) s).2.respQueue = s.respQueue) ∧
    (∀ s : HState, ((process_status_update) s).2.respQueue = s.respQueue) ∧
    (∀ s : HState, ∃ k, s.respQueue = k ++ ((process_resp_from_queue s).2).respQueue) ∧
    (∀ s : HState, ((clear_queues) s).2.respQueue = []) := by
  refine ⟨ack_step, ?_, preserveQ_process_data_packet, preserveQ_process_status_update,
    respQueue_suffix_process_resp, ?_⟩
  · intro cmd s
    obtain ⟨w, hw⟩ := queue_command_state cmd s
    rw [hw]
    exact ⟨rfl, rfl⟩
  · intro s
    rw [show ((clear_queues) s).2 =
      drainResp (drainAck s.ackQueue { s with ackQueue := [] }).respQueue
        { drainAck s.ackQueue { s with ackQueue := [] } with respQueue := [] } from
      congrArg Prod.snd (clear_queues_run s)]
    exact (drainResp_fields _ _).1

/-- Witness for C2 at a concrete state: one queued `GetDeviceNameCommand`
entry, the ACK frame pending; processing pops it, completes it, and moves
the pair to the Response Queue. -/
theorem C2_ack_processing_witness :
    process_single_input_event
        { initState [0xFF, 0x07] with
            ackQueue := [(4, some (GetDeviceNameCommand, 9))] } =
      (.ok (),
        { initState [0xFF, 0x07] with
            input := [0x07]
            ackQueue := []
            respQueue := [(GetDeviceNameCommand, 9)]
            complStore := upd (initState []).complStore 4 true }) := by
  have h := C2_ack_processing.1
    { initState [0xFF, 0x07] with ackQueue := [(4, some (GetDeviceNameCommand, 9))] }
    4 (some (GetDeviceNameCommand, 9)) [] [0x07] rfl rfl
  rw [h]
  rfl

/-!  ### Claim C4 — `clear_queues` releases every waiter -/

/-- Once a completion flag is set, later drain steps keep it set. -/
theorem drainAck_complStore_mono (l : List (Nat × Option (BtCommand × Nat)))
    (s : HState) (j : Nat) (h : s.complStore j = true) :
    (drainAck l s).complStore j = true := by
  induction l generalizing s with
  | nil => exact h
  | cons e rest ih =>
      obtain ⟨cid, pairOpt⟩ := e
      cases pairOpt with
      | none =>
          simp only [drainAck]
          exact ih _ (by unfold upd; simp [h])
      | some p =>
          obtain ⟨c, rid⟩ := p
          simp only [drainAck]
          exact ih _ (by unfold upd; simp [h])

/-- Every completion that was in a drained Ack-Queue entry is completed. -/
theorem drainAck_complStore_mem (l : List (Nat × Option (BtCommand × Nat)))
    (s : HState) (cid : Nat) (pair : Option (BtCommand × Nat))
    (hm : (cid, pair) ∈ l) : (drainAck l s).complStore cid = true := by
  induction l generalizing s with
  | nil => cases hm
  | cons e rest ih =>
      obtain ⟨c2, p2⟩ := e
      rcases List.mem_cons.mp hm with he | hm2
      · injection he with h1 h2
        subst h1
        cases p2 with
        | none =>
            simp only [drainAck]
            exact drainAck_complStore_mono _ _ _ (by unfold upd; simp)
        | some p =>
            obtain ⟨c, rid⟩ := p
            simp only [drainAck]
            exact drainAck_complStore_mono _ _ _ (by unfold upd; simp)
      · cases p2 with
        | none =>
            simp only [drainAck]
            exact ih _ hm2
        | some p =>
            obtain ⟨c, rid⟩ := p
            simp only [drainAck]
            exact ih _ hm2

/-- Once a response result is set to `None`, later ack-drain steps keep it. -/
theorem drainAck_respStore_mono (l : List (Nat × Option (BtCommand × Nat)))
    (s : HState) (j : Nat) (h : s.respStore j = some .pyNone) :
    (drainAck l s).respStore j = some .pyNone := by
  induction l generalizing s with
  | nil => exact h
  | cons e rest ih =>
      obtain ⟨cid, pairOpt⟩ := e
      cases pairOpt with
      | none =>
          simp only [drainAck]
          exact ih _ h
      | some p =>
          obtain ⟨c, rid⟩ := p
          simp only [drainAck]
          exact ih _ (by unfold upd; simp [h])

/-- Every response in a drained Ack-Queue entry is set to `None`. -/
theorem drainAck_respStore_mem (l : List (Nat × Option (BtCommand × Nat)))
    (s : HState) (cid : Nat) (cmd : BtCommand) (rid : Nat)
    (hm : (cid, some (cmd, rid)) ∈ l) :
    (drainAck l s).respStore rid = some .pyNone := by
  induction l generalizing s with
  | nil => cases hm
  | cons e rest ih =>
      obtain ⟨c2, p2⟩ := e
      rcases List.mem_cons.mp hm with he | hm2
      · injection he with h1 h2
        subst h1 h2
        simp only [drainAck]
        exact drainAck_respStore_mono _ _ _ (by unfold upd; simp)
      · cases p2 with
        | none =>
            simp only [drainAck]
            exact ih _ hm2
        | some p =>
            obtain ⟨c, rid2⟩ := p
            simp only [drainAck]
            exact ih _ hm2

/-- Once a response result is set to `None`, later resp-drain steps keep it. -/
theorem drainResp_respStore_mono (l : List (BtCommand × Nat)) (s : HState)
    (j : Nat) (h : s.respStore j = some .pyNone) :
    (drainResp l s).respStore j = some .pyNone := by
  induction l generalizing s with
  | nil => exact h
  | cons e rest ih =>
      obtain ⟨c, rid⟩ := e
      simp only [drainResp]
      exact ih _ (by unfold upd; simp [h])

/-- Every response in a drained Response-Queue entry is set to `None`. -/
theorem drainResp_respStore_mem (l : List (BtCommand × Nat)) (s : HState)
    (cmd : BtCommand) (rid : Nat) (hm : (cmd, rid) ∈ l) :
    (drainResp l s).respStore rid = some .pyNone := by
  induction l generalizing s with
  | nil => cases hm
  | cons e rest ih =>
      obtain ⟨c2, r2⟩ := e
      rcases List.mem_cons.mp hm with he | hm2
      · injection he with h1 h2
        subst h2
        simp only [drainResp]
        exact drainResp_respStore_mono _ _ _ (by unfold upd; simp)
      · simp only [drainResp]
        exact ih _ hm2

/-- **C4.**  After `clear_queues()` both queues are empty, every
`PendingCompletion` that was in an Ack-Queue entry is completed, and every
`PendingResponse` in either queue has its result set to `None`, so no
blocked caller stays blocked. -/
theorem C4_clear_queues (s : HState) :
    (clear_queues s).1 = .ok () ∧
    ((clear_queues s).2).ackQueue = [] ∧
    ((clear_queues s).2).respQueue = [] ∧
    (∀ cid pair, (cid, pair) ∈ s.ackQueue →
      ((clear_queues s).2).complStore cid = true) ∧
    (∀ cid cmd rid, (cid, some (cmd, rid)) ∈ s.ackQueue →
      ((clear_queues s).2).respStore rid = some .pyNone) ∧
    (∀ cmd rid, (cmd, rid) ∈ s.respQueue →
      ((clear_queues s).2).respStore rid = some .pyNone) := by
  have hrun : ((clear_queues) s).2 =
      drainResp (drainAck s.ackQueue { s with ackQueue := [] }).respQueue
        { drainAck s.ackQueue { s with ackQueue := [] } with respQueue := [] } :=
    congrArg Prod.snd (clear_queues_run s)
  have hRQ : (drainAck s.ackQueue { s with ackQueue := [] }).respQueue = s.respQueue :=
    (drainAck_fields _ _).1
  refine ⟨congrArg Prod.fst (clear_queues_run s), ?_, ?_, ?_, ?_, ?_⟩
  · rw [hrun, (drainResp_fields _ _).2.1]
    exact (drainAck_fields _ _).2.1
  · rw [hrun]
    exact (drainResp_fields _ _).1
  · intro cid pair hm
    rw [hrun, show (drainResp (drainAck s.ackQueue { s with ackQueue := [] }).respQueue
        { drainAck s.ackQueue { s with ackQueue := [] } with respQueue := [] }).complStore =
      ({ drainAck s.ackQueue { s with ackQueue := [] } with respQueue := [] } :
        HState).complStore from (drainResp_fields _ _).2.2]
    exact drainAck_complStore_mem _ _ _ _ hm
  · intro cid cmd rid hm
    rw [hrun]
    exact drainResp_respStore_mono _ _ _ (drainAck_respStore_mem _ _ _ _ _ hm)
  · intro cmd rid hm
    rw [hrun]
    exact drainResp_respStore_mem _ _ cmd rid (by rw [hRQ]; exact hm)

/-- Witness for C4 at a concrete state: one pending Ack-Queue entry and one
pending Response-Queue entry are all released. -/
theorem C4_clear_queues_witness :
    (clear_queues { initState [] with
        ackQueue := [(0, some (GetDeviceNameCommand, 0))]
        respQueue := [(.getStatus, 1)] }).2.complStore 0 = true ∧
    (clear_queues { initState [] with
        ackQueue := [(0, some (GetDeviceNameCommand, 0))]
        respQueue := [(.getStatus, 1)] }).2.respStore 0 = some .pyNone ∧
    (clear_queues { initState [] with
        ackQueue := [(0, some (GetDeviceNameCommand, 0))]
        respQueue := [(.getStatus, 1)] }).2.respStore 1 = some .pyNone ∧
    (clear_queues { initState [] with
        ackQueue := [(0, some (GetDeviceNameCommand, 0))]
        respQueue := [(.getStatus, 1)] }).2.ackQueue = [] := by
  refine ⟨?_, ?_, ?_, ?_⟩
  · exact (C4_clear_queues _).2.2.2.1 0 (some (GetDeviceNameCommand, 0)) (by decide)
  · exact (C4_clear_queues _).2.2.2.2.1 0 GetDeviceNameCommand 0 (by decide)
  · exact (C4_clear_queues _).2.2.2.2.2 .getStatus 1 (by decide)
  · exact (C4_clear_queues _).2.1

/-!  ### Claim C10 — Ack-Queue entry is enqueued before any request byte -/

/-- **C10.**  `queue_command` is exactly "enqueue, then send": the enqueue
stage appends the new entry to the Ack Queue while writing nothing to the
transport, and the send stage never touches the Ack Queue and only
appends request bytes — so at no point does a (partially) written command
frame exist on the wire without its Ack-Queue entry being present. -/
theorem C10_enqueue_before_send (cmd : BtCommand) (s : HState) :
    queue_command cmd =
      (queue_command_enqueue cmd >>= fun r => cmd.send >>= fun _ => pure r) ∧
    ((queue_command_enqueue cmd) s).2.written = s.written ∧
    ((queue_command_enqueue cmd) s).2.ackQueue =
      s.ackQueue ++
        [(s.nextCompl, if cmd.has_response then some (cmd, s.nextResp) else none)] ∧
    (queue_command_enqueue cmd s).1 =
      .ok (s.nextCompl, if cmd.has_response then some s.nextResp else none) ∧
    (∀ s2 : HState, ((cmd.send) s2).2.ackQueue = s2.ackQueue ∧
      ∃ w, ((cmd.send) s2).2.written = s2.written ++ w) := by
  refine ⟨rfl, ?_, ?_, ?_, ?_⟩
  · rw [queue_command_enqueue_run]
  · rw [queue_command_enqueue_run]
  · rw [queue_command_enqueue_run]
  · intro s2
    obtain ⟨w, hw⟩ := send_only_writes cmd s2
    rw [hw]
    exact ⟨rfl, w, rfl⟩

/-!  ### Claim C5 — sensor bitfield round trip -/

/-- The exponent of each sensor's single-bit mask in the 3-byte bitfield. -/
def sensorBitIdx : ESensorGroup → Nat
  | .ACCEL_LN => 7
  | .GYRO => 6
  | .MAG => 5
  | .EXG1_24BIT => 4
  | .EXG2_24BIT => 3
  | .GSR => 2
  | .CH_A7 => 1
  | .CH_A6 => 0
  | .STRAIN => 15
  | .BATTERY => 13
  | .ACCEL_WR => 12
  | .CH_A15 => 11
  | .CH_A1 => 10
  | .CH_A12 => 9
  | .CH_A13 => 8
  | .CH_A14 => 23
  | .ACCEL_MPU => 22
  | .MAG_MPU => 21
  | .EXG1_16BIT => 20
  | .EXG2_16BIT => 19
  | .PRESSURE => 18
  | .TEMP => 17

theorem bitAssign_two_pow : ∀ g, SensorBitAssignments g = 2 ^ sensorBitIdx g := by decide

theorem sensorBitIdx_inj : ∀ g h : ESensorGroup, sensorBitIdx g = sensorBitIdx h → g = h := by
  decide

theorem bitAssign_lt : ∀ g : ESensorGroup, SensorBitAssignments g < 2 ^ 24 := by decide

theorem mem_allSensorGroups : ∀ g : ESensorGroup, g ∈ allSensorGroups := by decide

theorem allSensorGroups_nodup : allSensorGroups.Nodup := by decide

theorem sortKeyFn_inj : ∀ a b : ESensorGroup, sortKeyFn a = sortKeyFn b → a = b := by decide

theorem sensorOrder_isSome : ∀ g : ESensorGroup, g ≠ .TEMP → (SensorOrder g).isSome := by decide

instance : IsAntisymm ESensorGroup sensorLe :=
  ⟨fun a b h1 h2 => sortKeyFn_inj a b (le_antisymm h1 h2)⟩

/-- The enable bitfield always fits in the three serialized bytes. -/
theorem sensors2bitfield_lt (S : List ESensorGroup) : sensors2bitfield S < 2 ^ 24 := by
  unfold sensors2bitfield
  suffices h : ∀ init, init < 2 ^ 24 →
      S.foldl (fun b g => b ||| SensorBitAssignments g) init < 2 ^ 24 by
    exact h 0 (by norm_num)
  induction S with
  | nil => intro init h; simpa using h
  | cons g rest ih =>
      intro init h
      simp only [List.foldl_cons]
      exact ih _ (Nat.or_lt_two_pow h (bitAssign_lt g))

theorem testBit_sensors2bitfield (S : List ESensorGroup) (init i : Nat) :
    (S.foldl (fun b g => b ||| SensorBitAssignments g) init).testBit i =
      (init.testBit i || S.any fun g => (SensorBitAssignments g).testBit i) := by
  induction S generalizing init with
  | nil => simp
  | cons g rest ih =>
      simp only [List.foldl_cons, List.any_cons]
      rw [ih]
      simp [Nat.testBit_or, Bool.or_assoc]

theorem bit_is_set_two_pow (b i : Nat) : bit_is_set b (2 ^ i) = b.testBit i := by
  unfold bit_is_set
  rw [Nat.and_two_pow]
  cases h : b.testBit i with
  | true => simp
  | false => simp [(Nat.two_pow_pos i).ne]

/-- A sensor's bit is set in the serialized bitfield of `S` exactly when
the sensor is in `S`. -/
theorem bit_mem_iff (S : List ESensorGroup) (g : ESensorGroup) :
    bit_is_set (sensors2bitfield S) (SensorBitAssignments g) = true ↔ g ∈ S := by
  rw [bitAssign_two_pow g, bit_is_set_two_pow]
  unfold sensors2bitfield
  rw [testBit_sensors2bitfield]
  simp only [Nat.zero_testBit, Bool.false_or]
  rw [List.any_eq_true]
  constructor
  · rintro ⟨h, hmem, hbit⟩
    rw [bitAssign_two_pow h, Nat.testBit_two_pow] at hbit
    have heq := of_decide_eq_true hbit
    rwa [sensorBitIdx_inj h g heq] at hmem
  · intro hmem
    refine ⟨g, hmem, ?_⟩
    rw [bitAssign_two_pow g, Nat.testBit_two_pow]
    simp

/-- `struct.pack` of an in-range unsigned value. -/
theorem structPackInt_unsigned (size : Nat) (le : Bool) (v : Nat)
    (hv : v < 2 ^ (8 * size)) :
    structPackInt size false le (v : Int) =
      .ok (if le then natToBytesLE size v else (natToBytesLE size v).reverse) := by
  have hcast : (v : Int) < 2 ^ (8 * size) := by exact_mod_cast hv
  unfold structPackInt
  simp only [Bool.false_eq_true, if_false]
  rw [if_pos ⟨Int.natCast_nonneg v, hcast⟩]
  rw [Int.emod_eq_of_lt (Int.natCast_nonneg v) hcast, Int.toNat_natCast]

/-- `SENSOR_DTYPE.encode` of an in-range bitfield: pack to 4 bytes
little-endian, truncate back to 3. -/
theorem sensor_dtype_encode (v : Nat) (hv : v < 2 ^ 24) :
    SENSOR_DTYPE.encode (v : Int) =
      .ok [v % 256, v / 256 % 256, v / 256 / 256 % 256] := by
  have h32 : v < 2 ^ (8 * 4) := lt_trans hv (by norm_num)
  show (if structDtypeKnown SENSOR_DTYPE.valid_size then _ else _) = _
  rw [show structDtypeKnown SENSOR_DTYPE.valid_size = true from rfl]
  simp only [if_true]
  rw [show SENSOR_DTYPE.valid_size = 4 from rfl,
    show SENSOR_DTYPE.signed = false from rfl, show SENSOR_DTYPE.le = true from rfl]
  rw [structPackInt_unsigned 4 true v h32]
  simp only [if_true, show SENSOR_DTYPE.needs_extend = true from rfl]
  show Except.ok (SENSOR_DTYPE.truncate_value (natToBytesLE 4 v)) = _
  unfold ChannelDataType.truncate_value
  simp [natToBytesLE, SENSOR_DTYPE, ENABLED_SENSORS_LEN]

/-- `SENSOR_DTYPE.decode` of three abstract bytes: zero-extend and combine
little-endian. -/
theorem sensor_dtype_decode (a b c : Nat) :
    SENSOR_DTYPE.decode [a, b, c] = .ok ((a + 256 * (b + 256 * c) : Nat) : Int) := rfl

/-- The serialize/deserialize composition reaches `bitfield2sensors` with
the original bitfield intact. -/
theorem deserialize_serialize (S : List ESensorGroup) :
    sensorRoundTrip S = bitfield2sensors (sensors2bitfield S) := by
  have hv := sensors2bitfield_lt S
  have hu : sensors2bitfield S % 256 +
      256 * (sensors2bitfield S / 256 % 256 + 256 * (sensors2bitfield S / 256 / 256 % 256)) =
      sensors2bitfield S := by omega
  unfold sensorRoundTrip serialize_sensorlist
  rw [sensor_dtype_encode _ hv]
  show deserialize_sensors [sensors2bitfield S % 256, sensors2bitfield S / 256 % 256,
    sensors2bitfield S / 256 / 256 % 256] = _
  unfold deserialize_sensors
  rw [sensor_dtype_decode]
  show bitfield2sensors (Int.toNat _) = _
  rw [hu, Int.toNat_natCast]

/-- For duplicate-free sensor sets without `TEMP`, `bitfield2sensors`
returns exactly the canonical sort of the original set, and `sort_sensors`
succeeds with the same list. -/
theorem bitfield2sensors_sorted (S : List ESensorGroup) (hnd : S.Nodup)
    (ht : ESensorGroup.TEMP ∉ S) :
    bitfield2sensors (sensors2bitfield S) = .ok (List.insertionSort sensorLe S) ∧
    sort_sensors S = .ok (List.insertionSort sensorLe S) := by
  have hmemL : ∀ g, g ∈ allSensorGroups.filter
      (fun g => bit_is_set (sensors2bitfield S) (SensorBitAssignments g)) ↔ g ∈ S := by
    intro g
    rw [List.mem_filter]
    constructor
    · rintro ⟨-, hp⟩
      exact (bit_mem_iff S g).mp hp
    · intro hg
      exact ⟨mem_allSensorGroups g, (bit_mem_iff S g).mpr hg⟩
  have hndL := allSensorGroups_nodup.filter
    (fun g => bit_is_set (sensors2bitfield S) (SensorBitAssignments g))
  have hperm : List.Perm (allSensorGroups.filter
      (fun g => bit_is_set (sensors2bitfield S) (SensorBitAssignments g))) S :=
    (List.perm_ext_iff_of_nodup hndL hnd).mpr hmemL
  have hsorteq : List.insertionSort sensorLe (allSensorGroups.filter
      (fun g => bit_is_set (sensors2bitfield S) (SensorBitAssignments g))) =
      List.insertionSort sensorLe S := by
    refine List.eq_of_perm_of_sorted ?_ (List.sorted_insertionSort _ _)
      (List.sorted_insertionSort _ _)
    exact (List.perm_insertionSort _ _).trans (hperm.trans (List.perm_insertionSort _ S).symm)
  have hallS : S.all (fun s => (SensorOrder s).isSome) = true := by
    rw [List.all_eq_true]
    intro g hg
    exact sensorOrder_isSome g (fun he => ht (he ▸ hg))
  have hallL : (allSensorGroups.filter
      (fun g => bit_is_set (sensors2bitfield S) (SensorBitAssignments g))).all
      (fun s => (SensorOrder s).isSome) = true := by
    rw [List.all_eq_true]
    intro g hg
    exact sensorOrder_isSome g (fun he => ht (he ▸ (hmemL g).mp hg))
  constructor
  · unfold bitfield2sensors sort_sensors
    rw [if_pos hallL, hsorteq]
  · unfold sort_sensors
    rw [if_pos hallS]

/-- **C5 counterexample.**  The `TEMP` sensor group has a bitfield
position but no entry in the canonical `SensorOrder`, so for `S = {TEMP}`
the round trip raises `KeyError` inside `sort_sensors` instead of
yielding the sorted list `[TEMP]` — and `sort_sensors` itself raises on
the same input. -/
theorem C5_roundtrip_counterexample :
    sensorRoundTrip [ESensorGroup.TEMP] = .error .keyError ∧
    sensorRoundTrip [ESensorGroup.TEMP] ≠ .ok [ESensorGroup.TEMP] ∧
    sort_sensors [ESensorGroup.TEMP] = .error .keyError := by
  refine ⟨?_, ?_, ?_⟩ <;> decide

/-- **C5 (amended).**  For every duplicate-free subset `S` of the sensor
groups that does not contain `TEMP` (the one group missing from
`SensorOrder`), deserializing the 3-byte serialization of `S` yields
exactly the sensors of `S` sorted by the canonical order, and equals
`sort_sensors S`; for sets containing `TEMP` both sides raise `KeyError`. -/
theorem C5_roundtrip_amended (S : List ESensorGroup) (hnd : S.Nodup)
    (ht : ESensorGroup.TEMP ∉ S) :
    sensorRoundTrip S = .ok (List.insertionSort sensorLe S) ∧
    sort_sensors S = .ok (List.insertionSort sensorLe S) := by
  obtain ⟨h1, h2⟩ := bitfield2sensors_sorted S hnd ht
  exact ⟨(deserialize_serialize S).trans h1, h2⟩

/-- Witness for C5 at the reference fixture `{GYRO, CH_A13, PRESSURE}`
(bitfield `0x040140`): the round trip returns the canonically sorted
list `[CH_A13, GYRO, PRESSURE]`. -/
theorem C5_roundtrip_witness :
    sensorRoundTrip [ESensorGroup.GYRO, ESensorGroup.CH_A13, ESensorGroup.PRESSURE] =
      .ok [ESensorGroup.CH_A13, ESensorGroup.GYRO, ESensorGroup.PRESSURE] ∧
    serialize_sensorlist [ESensorGroup.GYRO, ESensorGroup.CH_A13, ESensorGroup.PRESSURE] =
      .ok [0x40, 0x01, 0x04] := by
  constructor
  · have h := (C5_roundtrip_amended
      [ESensorGroup.GYRO, ESensorGroup.CH_A13, ESensorGroup.PRESSURE]
      (by decide) (by decide)).1
    rw [h]
    decide
  · decide

end PyShimmer
